import Mathlib

/-!
Shallow embedding of the streaming-inference core of the repository
(`src/backend/src/ethos/mod.rs` and `src/backend/src/inference/mod.rs`).

Modelling conventions:
* Rust `f64` is modelled as `ℚ` (the arithmetic used by the code is
  addition, multiplication, division, clamping and comparison on finite
  values; no NaN/infinity is produced on the modelled paths).
* Rust `HashMap<K, V>` fields are modelled as association lists
  `List (K × V)`; the code only uses lookup, insertion of distinct keys,
  entry counts and value iteration.
* Rust `i64` timestamps are modelled as `ℤ`, `u64` seconds as `ℕ`
  (cast to `ℤ` where the code casts `as i64`).
* `format!` string interpolation of numbers is rendered with `reprStr`;
  the exact digit formatting (`{:.1}` etc.) is immaterial to every claim.
* Panics are modelled by an `Option` result (`none` = panic).
-/

/-- Explanation generated when an action is blocked
(`CounterfactualExplanation` in `ethos/mod.rs`). `severity` is `u8`. -/
structure CounterfactualExplanation where
  blocked_action : String
  rule_violated : String
  rule_id : String
  counterfactual : String
  severity : ℕ
  context : List (String × String)
deriving DecidableEq, Repr

/-- Builder `CounterfactualExplanation::new` (context starts empty). -/
def CounterfactualExplanation.new (blocked_action rule_violated rule_id counterfactual : String)
    (severity : ℕ) : CounterfactualExplanation :=
  { blocked_action := blocked_action, rule_violated := rule_violated, rule_id := rule_id,
    counterfactual := counterfactual, severity := severity, context := [] }

/-- Builder `CounterfactualExplanation::with_context` (HashMap insert of a
fresh key, modelled as list append). -/
def CounterfactualExplanation.with_context (self : CounterfactualExplanation)
    (key value : String) : CounterfactualExplanation :=
  { self with context := self.context ++ [(key, value)] }

/-- Result of an ethos check (`EthosResult<T>`). -/
inductive EthosResult (T : Type) where
  | allowed (v : T)
  | blocked (e : CounterfactualExplanation)

/-- Method `EthosResult::is_allowed`. -/
def EthosResult.is_allowed {T : Type} : EthosResult T → Bool
  | .allowed _ => true
  | .blocked _ => false

/-- Method `EthosResult::is_blocked`. -/
def EthosResult.is_blocked {T : Type} : EthosResult T → Bool
  | .allowed _ => false
  | .blocked _ => true

/-- Method `EthosResult::unwrap`. In the Rust source this accessor
`panic!`s with "Action blocked: …" when the result is `Blocked`; the
panic (process abort, no value produced) is modelled as `none`. -/
def EthosResult.unwrap {T : Type} : EthosResult T → Option T
  | .allowed v => some v
  | .blocked _ => none

/-- Method `EthosResult::explanation`. -/
def EthosResult.explanation {T : Type} : EthosResult T → Option CounterfactualExplanation
  | .blocked e => some e
  | .allowed _ => none

/-- Patient data context for rule evaluation (`PatientData`). Each
`HashMap<String, _>` is carried as an association list. -/
structure PatientData where
  vitals : List (String × Option ℚ)
  lab_values : List (String × Option ℚ)
  timestamps : List (String × ℤ)
  metadata : List (String × String)
deriving DecidableEq, Repr

/-- Constructor `PatientData::new` (all maps empty, the `Default`). -/
def PatientData.new : PatientData := ⟨[], [], [], []⟩

/-- Method `PatientData::get_vital`: `self.vitals.get(name).copied().flatten()`. -/
def PatientData.get_vital (self : PatientData) (name : String) : Option ℚ :=
  (self.vitals.lookup name).join

/-- Method `PatientData::get_lab`: `self.lab_values.get(name).copied().flatten()`. -/
def PatientData.get_lab (self : PatientData) (name : String) : Option ℚ :=
  (self.lab_values.lookup name).join

/-- Method `PatientData::is_vital_missing`:
`self.vitals.get(name).map_or(true, |v| v.is_none())`. -/
def PatientData.is_vital_missing (self : PatientData) (name : String) : Bool :=
  match self.vitals.lookup name with
  | some v => v.isNone
  | none => true

/-- Method `PatientData::is_lab_missing`. -/
def PatientData.is_lab_missing (self : PatientData) (name : String) : Bool :=
  match self.lab_values.lookup name with
  | some v => v.isNone
  | none => true

/-- A guard rule: the `EthosRule` trait object (`id`, `description`,
`check`, `explain`), modelled as a record of its methods. -/
structure EthosRule where
  id : String
  description : String
  check : PatientData → Bool
  explain : PatientData → CounterfactualExplanation

/-- Rule `RequireCriticalVitals` (configured vital names). -/
structure RequireCriticalVitals where
  required_vitals : List String

/-- `RequireCriticalVitals::check`: every required vital is not missing. -/
def RequireCriticalVitals.check (self : RequireCriticalVitals) (data : PatientData) : Bool :=
  self.required_vitals.all (fun v => !(data.is_vital_missing v))

/-- `RequireCriticalVitals::explain`. The `{:?}` debug rendering of the
missing list is rendered with `reprStr`. -/
def RequireCriticalVitals.explain (self : RequireCriticalVitals)
    (data : PatientData) : CounterfactualExplanation :=
  let missing := self.required_vitals.filter (fun v => data.is_vital_missing v)
  CounterfactualExplanation.new
    "Sepsis Risk Prediction"
    ("Missing critical vital signs: " ++ reprStr missing)
    "ETHOS-001"
    ("If " ++ String.intercalate ", " missing ++ " were available, prediction would proceed")
    8

/-- The `EthosRule` impl for `RequireCriticalVitals`. -/
def RequireCriticalVitals.toRule (self : RequireCriticalVitals) : EthosRule :=
  { id := "ETHOS-001",
    description := "Require critical vital signs before making predictions",
    check := self.check, explain := self.explain }

/-- Rule `MaxUncertaintyThreshold` (threshold on the missing-value ratio). -/
structure MaxUncertaintyThreshold where
  threshold : ℚ

/-- `MaxUncertaintyThreshold::check`: with `total` the number of vital
plus lab entries, returns `false` outright when `total == 0`
("No data = high uncertainty"), otherwise compares
`missing / total <= threshold`. -/
def MaxUncertaintyThreshold.check (self : MaxUncertaintyThreshold)
    (data : PatientData) : Bool :=
  let total := data.vitals.length + data.lab_values.length
  if total = 0 then
    false
  else
    let missing := data.vitals.countP (fun kv => kv.2.isNone)
      + data.lab_values.countP (fun kv => kv.2.isNone)
    decide ((missing : ℚ) / (total : ℚ) ≤ self.threshold)

/-- The uncertainty value as computed in `MaxUncertaintyThreshold::explain`:
`if total > 0 { missing / total } else { 1.0 }`. -/
def uncertainty (data : PatientData) : ℚ :=
  let total := data.vitals.length + data.lab_values.length
  let missing := data.vitals.countP (fun kv => kv.2.isNone)
    + data.lab_values.countP (fun kv => kv.2.isNone)
  if total > 0 then (missing : ℚ) / (total : ℚ) else 1

/-- `MaxUncertaintyThreshold::explain` (percentage formatting rendered
with `reprStr`). -/
def MaxUncertaintyThreshold.explain (self : MaxUncertaintyThreshold)
    (data : PatientData) : CounterfactualExplanation :=
  let u := uncertainty data
  (CounterfactualExplanation.new
    "Sepsis Risk Prediction"
    ("Data uncertainty (" ++ reprStr (u * 100) ++ "%) exceeds maximum threshold ("
      ++ reprStr (self.threshold * 100) ++ "%)")
    "ETHOS-002"
    ("If at least " ++ reprStr ((1 - self.threshold) * 100)
      ++ "% of values were present, prediction would proceed")
    7).with_context "current_uncertainty" (reprStr u)
      |>.with_context "threshold" (reprStr self.threshold)

/-- The `EthosRule` impl for `MaxUncertaintyThreshold`. -/
def MaxUncertaintyThreshold.toRule (self : MaxUncertaintyThreshold) : EthosRule :=
  { id := "ETHOS-002",
    description := "Block prediction if data uncertainty exceeds threshold",
    check := self.check, explain := self.explain }

/-- The guard holding an ordered rule list (`EthosGuard`). -/
structure EthosGuard where
  rules : List EthosRule

/-- Loop body of `EthosGuard::check`: scan rules in configured order,
return `Blocked(rule.explain(data))` for the first rule whose `check`
is false, else `Allowed(action)`. -/
def EthosGuard.checkList {T : Type} : List EthosRule → PatientData → T → EthosResult T
  | [], _, action => .allowed action
  | r :: rs, data, action =>
      if r.check data then EthosGuard.checkList rs data action
      else .blocked (r.explain data)

/-- Method `EthosGuard::check` (fail-fast evaluation). -/
def EthosGuard.check {T : Type} (self : EthosGuard) (data : PatientData)
    (action : T) : EthosResult T :=
  EthosGuard.checkList self.rules data action

/-- Method `EthosGuard::check_all` (collect every violation, in rule order). -/
def EthosGuard.check_all (self : EthosGuard) (data : PatientData) :
    List CounterfactualExplanation :=
  (self.rules.filter (fun r => !(r.check data))).map (fun r => r.explain data)

/-- `EthosGuard::clinical_default`: `RequireCriticalVitals(["MAP","HR"])`
followed by `MaxUncertaintyThreshold(0.5)`. -/
def EthosGuard.clinical_default : EthosGuard :=
  { rules := [(RequireCriticalVitals.mk ["MAP", "HR"]).toRule,
              (MaxUncertaintyThreshold.mk (1/2)).toRule] }

/-! Inference module (`inference/mod.rs`). -/

/-- Alert categories (`AlertType`). -/
inductive AlertType where
  | sepsisRisk
  | vitalAbnormal
  | trendChange
  | dataQuality
  | ethosBlocked
deriving DecidableEq, Repr

/-- Alert severity levels (`AlertSeverity`, ordinals 1..4). -/
inductive AlertSeverity where
  | info
  | warning
  | critical
  | emergency
deriving DecidableEq, Repr

/-- Alert record (`Alert`); `triggering_values : HashMap<String, f64>`
modelled as an association list. -/
structure Alert where
  patient_id : String
  alert_type : AlertType
  message : String
  severity : AlertSeverity
  timestamp : ℤ
  triggering_values : List (String × ℚ)
deriving DecidableEq, Repr

/-- Patient vital signs update (`VitalUpdate`). -/
structure VitalUpdate where
  patient_id : String
  timestamp : ℤ
  vitals : List (String × Option ℚ)
  labs : List (String × Option ℚ)
deriving DecidableEq, Repr

/-- Method `VitalUpdate::to_patient_data`: inserts every vitals and labs
entry into a fresh `PatientData`; since the maps are carried as
association lists this transfers them unchanged (timestamps and
metadata stay empty). -/
def VitalUpdate.to_patient_data (self : VitalUpdate) : PatientData :=
  { vitals := self.vitals, lab_values := self.labs, timestamps := [], metadata := [] }

/-- Discretized risk level (`RiskLevel`). -/
inductive RiskLevel where
  | low
  | moderate
  | high
  | critical
deriving DecidableEq, Repr

/-- `RiskLevel::from_score`: the source `match` with guards
`s < 0.25`, `s < 0.50`, `s < 0.75`, wildcard `Critical`. -/
def RiskLevel.from_score (score : ℚ) : RiskLevel :=
  if score < 1/4 then .low
  else if score < 1/2 then .moderate
  else if score < 3/4 then .high
  else .critical

/-- Inference result (`InferenceResult`). -/
structure InferenceResult where
  patient_id : String
  timestamp : ℤ
  sepsis_risk : ℚ
  risk_level : RiskLevel
  top_contributing_factors : List (String × ℚ)
  confidence : ℚ
deriving DecidableEq, Repr

/-- Engine configuration (`StreamingConfig`). -/
structure StreamingConfig where
  sepsis_alert_threshold : ℚ
  alert_cooldown_secs : ℕ
  enable_ethos : Bool

/-- `StreamingConfig::default`: threshold 0.7, cooldown 300 s, ethos on. -/
def StreamingConfig.default : StreamingConfig :=
  { sepsis_alert_threshold := 7/10, alert_cooldown_secs := 300, enable_ethos := true }

/-- Internal per-patient state (`PatientState`). -/
structure PatientState where
  last_update : ℤ
  last_alert : Option ℤ
  vital_history : List VitalUpdate
  current_risk : ℚ
deriving DecidableEq, Repr

/-- The `or_insert` default of `process_update`: zero timestamps, no
alert, empty history, zero risk. -/
def PatientState.init : PatientState :=
  { last_update := 0, last_alert := none, vital_history := [], current_risk := 0 }

/-- Streaming engine (`StreamingInference`); the `HashMap<String,
PatientState>` is modelled as a total function into `Option PatientState`
(`none` = patient not yet tracked). -/
structure StreamingInference where
  config : StreamingConfig
  ethos_guard : EthosGuard
  patient_states : String → Option PatientState
  feature_weights : List (String × ℚ)

/-- Constructor `StreamingInference::new` (clinical-default guard, empty
state map, empty weights). -/
def StreamingInference.new (config : StreamingConfig) : StreamingInference :=
  { config := config, ethos_guard := EthosGuard.clinical_default,
    patient_states := fun _ => none, feature_weights := [] }

/-- Method `StreamingInference::set_feature_weights`. -/
def StreamingInference.set_feature_weights (self : StreamingInference)
    (weights : List (String × ℚ)) : StreamingInference :=
  { self with feature_weights := weights }

/-- Rust `f64::clamp(self, lo, hi)`. -/
def Rat.clamp (x lo hi : ℚ) : ℚ :=
  if x < lo then lo else if x > hi then hi else x

/-- The value lookup of `calculate_risk` and `calculate_confidence`:
`data.get_vital(feature).or_else(|| data.get_lab(feature))`. -/
def featureValue (data : PatientData) (name : String) : Option ℚ :=
  match data.get_vital name with
  | some v => some v
  | none => data.get_lab name

/-- Loop body of `StreamingInference::calculate_risk`, one feature-weight
pair folded over the accumulator `(total_weight, weighted_sum,
contributions)`. Note the source adds `weight` to `total_weight`
unconditionally, before checking whether the feature has a value. -/
def calculate_risk_step (data : PatientData) (acc : ℚ × ℚ × List (String × ℚ))
    (fw : String × ℚ) : ℚ × ℚ × List (String × ℚ) :=
  let total_weight := acc.1 + fw.2
  match featureValue data fw.1 with
  | some v =>
      let normalized := (v / 100).clamp 0 1
      let contribution := normalized * fw.2
      (total_weight, acc.2.1 + contribution, acc.2.2 ++ [(fw.1, contribution)])
  | none => (total_weight, acc.2.1, acc.2.2)

/-- Method `StreamingInference::calculate_risk`: fold the loop body over
`feature_weights`, then `risk = if total_weight > 0 {
(weighted_sum / total_weight).clamp(0,1) } else { 0.5 }` and the
contributions stably sorted descending by value. -/
def StreamingInference.calculate_risk (self : StreamingInference)
    (data : PatientData) : ℚ × List (String × ℚ) :=
  let acc := self.feature_weights.foldl (calculate_risk_step data) (0, 0, [])
  let risk := if acc.1 > 0 then (acc.2.1 / acc.1).clamp 0 1 else 1/2
  (risk, acc.2.2.mergeSort (fun a b => decide (b.2 ≤ a.2)))

/-- Method `StreamingInference::calculate_confidence`: fraction of
weighted features with an available value, `0.0` when no weights are
configured. -/
def StreamingInference.calculate_confidence (self : StreamingInference)
    (data : PatientData) : ℚ :=
  let counts := self.feature_weights.foldl
    (fun (c : ℕ × ℕ) fw =>
      (if (data.get_vital fw.1).isSome || (data.get_lab fw.1).isSome then c.1 + 1 else c.1,
       c.2 + 1))
    (0, 0)
  if counts.2 > 0 then (counts.1 : ℚ) / (counts.2 : ℚ) else 0

/-- Mutation of the engine's patient-state map entry for `patient_id`
(the net effect of writing through `entry(..).or_insert(..)`). -/
def StreamingInference.saveState (eng : StreamingInference) (patient_id : String)
    (st : PatientState) : StreamingInference :=
  { eng with patient_states :=
      fun q => if q = patient_id then some st else eng.patient_states q }

/-- First stage of `process_update`: get or create the patient state, set
`last_update`, push the update onto `vital_history` and evict the oldest
entry when the length exceeds 24. -/
def StreamingInference.updatedState (eng : StreamingInference)
    (update : VitalUpdate) : PatientState :=
  let state0 := (eng.patient_states update.patient_id).getD PatientState.init
  let stateA : PatientState :=
    { state0 with last_update := update.timestamp,
                  vital_history := state0.vital_history ++ [update] }
  if stateA.vital_history.length > 24 then
    { stateA with vital_history := stateA.vital_history.drop 1 }
  else stateA

/-- Continuation of `process_update` past the guard check (the straight-line
code after the Ethos block): compute risk and confidence, store
`current_risk`, and run the alerting decision with the cooldown. `stateB`
is the history-updated patient state. -/
def StreamingInference.process_proceed (eng : StreamingInference) (update : VitalUpdate)
    (stateB : PatientState) : StreamingInference × Option InferenceResult × List Alert :=
  let patient_id := update.patient_id
  let timestamp := update.timestamp
  let rc := eng.calculate_risk update.to_patient_data
  let risk_score := rc.1
  let contributions := rc.2
  let stateC := { stateB with current_risk := risk_score }
  let inference_result : InferenceResult :=
    { patient_id := patient_id, timestamp := timestamp, sepsis_risk := risk_score,
      risk_level := RiskLevel.from_score risk_score,
      top_contributing_factors := contributions,
      confidence := eng.calculate_confidence update.to_patient_data }
  if risk_score ≥ eng.config.sepsis_alert_threshold then
    let should_alert : Bool :=
      match stateC.last_alert with
      | some last => decide (timestamp - last ≥ (eng.config.alert_cooldown_secs : ℤ))
      | none => true
    if should_alert then
      let stateD := { stateC with last_alert := some timestamp }
      let alert : Alert :=
        { patient_id := patient_id, alert_type := AlertType.sepsisRisk,
          message := "HIGH SEPSIS RISK: " ++ reprStr (risk_score * 100) ++ "%",
          severity := if risk_score ≥ 9/10 then AlertSeverity.emergency
                      else AlertSeverity.critical,
          timestamp := timestamp,
          triggering_values := contributions.take 3 }
      (eng.saveState patient_id stateD, some inference_result, [alert])
    else
      (eng.saveState patient_id stateC, some inference_result, [])
  else
    (eng.saveState patient_id stateC, some inference_result, [])

/-- Body of `StreamingInference::process_update` (the Rust method wraps
every return value in `Ok`; the `Result` wrapper is `process_update`
below). Returns the updated engine, the optional inference result and
the alert list. -/
def StreamingInference.process_update_inner (eng : StreamingInference)
    (update : VitalUpdate) : StreamingInference × Option InferenceResult × List Alert :=
  let stateB := eng.updatedState update
  if eng.config.enable_ethos then
    match eng.ethos_guard.check update.to_patient_data () with
    | EthosResult.blocked explanation =>
        (eng.saveState update.patient_id stateB, none,
         [{ patient_id := update.patient_id, alert_type := AlertType.ethosBlocked,
            message := "Prediction blocked: " ++ explanation.rule_violated,
            severity := AlertSeverity.warning, timestamp := update.timestamp,
            triggering_values := [] }])
    | EthosResult.allowed _ => eng.process_proceed update stateB
  else eng.process_proceed update stateB

/-- Method `StreamingInference::process_update` with its declared
`anyhow::Result` return type: every return site of the Rust body wraps
the value in `Ok`, so the embedding wraps the total body in `.ok`. -/
def StreamingInference.process_update (eng : StreamingInference)
    (update : VitalUpdate) :
    Except String (StreamingInference × Option InferenceResult × List Alert) :=
  .ok (eng.process_update_inner update)

/-! Derived observations on the engine, used to state the claims. -/

/-- Engine after one processed update. -/
def StreamingInference.stepEngine (eng : StreamingInference) (u : VitalUpdate) :
    StreamingInference :=
  (eng.process_update_inner u).1

/-- Observable output (inference result, alerts) of one processed update. -/
def StreamingInference.stepOutput (eng : StreamingInference) (u : VitalUpdate) :
    Option InferenceResult × List Alert :=
  (eng.process_update_inner u).2

/-- Engine after a sequence of processed updates. -/
def StreamingInference.runEngine : StreamingInference → List VitalUpdate → StreamingInference
  | eng, [] => eng
  | eng, u :: us => (eng.stepEngine u).runEngine us

/-- Outputs of a sequence of processed updates, in processing order. -/
def StreamingInference.runOutputs : StreamingInference → List VitalUpdate →
    List (Option InferenceResult × List Alert)
  | _, [] => []
  | eng, u :: us => eng.stepOutput u :: (eng.stepEngine u).runOutputs us

/-- Stored per-patient history in an engine state (empty if untracked). -/
def historyOf (eng : StreamingInference) (p : String) : List VitalUpdate :=
  ((eng.patient_states p).getD PatientState.init).vital_history

/-- Stored per-patient last-alert timestamp in an engine state. -/
def lastAlertOf (eng : StreamingInference) (p : String) : Option ℤ :=
  ((eng.patient_states p).getD PatientState.init).last_alert

/-- One history step as performed by `process_update`: append the update,
then remove the oldest entry if the length exceeds 24. -/
def pushCap (h : List VitalUpdate) (u : VitalUpdate) : List VitalUpdate :=
  let h2 := h ++ [u]
  if h2.length > 24 then h2.drop 1 else h2

/-- Whether a step output carries a `SepsisRisk` alert for patient `p`. -/
def hasSepsisAlert (out : Option InferenceResult × List Alert) (p : String) : Bool :=
  out.2.any (fun a => a.patient_id == p && a.alert_type == AlertType.sepsisRisk)

/-- Timestamps of the `SepsisRisk` alerts for patient `p` across a list of
step outputs, in emission order. -/
def sepsisTimes (p : String) (outs : List (Option InferenceResult × List Alert)) : List ℤ :=
  (outs.flatMap (fun o =>
    o.2.filter (fun a => a.patient_id == p && a.alert_type == AlertType.sepsisRisk))).map
    (fun a => a.timestamp)

/-- Cooldown condition of the alerting decision, on the state as read by
`process_update`: no previous alert recorded, or the update's timestamp
minus the last recorded alert timestamp is at least the cooldown. -/
def cooldownOk (eng : StreamingInference) (u : VitalUpdate) : Prop :=
  lastAlertOf eng u.patient_id = none ∨
    ∃ t, lastAlertOf eng u.patient_id = some t ∧
      (eng.config.alert_cooldown_secs : ℤ) ≤ u.timestamp - t

instance (eng : StreamingInference) (u : VitalUpdate) : Decidable (cooldownOk eng u) := by
  unfold cooldownOk
  cases h : lastAlertOf eng u.patient_id with
  | none => exact .isTrue (Or.inl rfl)
  | some t =>
      by_cases hc : (eng.config.alert_cooldown_secs : ℤ) ≤ u.timestamp - t
      · exact .isTrue (Or.inr ⟨t, rfl, hc⟩)
      · refine .isFalse ?_
        rintro (hnone | ⟨t2, ht2, hle⟩)
        · exact Option.noConfusion hnone
        · cases ht2
          exact hc hle

/-- Risk score the engine would compute for an update's snapshot. -/
def riskOf (eng : StreamingInference) (u : VitalUpdate) : ℚ :=
  (eng.calculate_risk u.to_patient_data).1

/-! Claim-side definitions, modelled from the spec's words, for comparison
with the source definitions above. -/

/-- Modelled from the spec (claim C1): the claimed risk formula
`clamp(Σ(normalized·weight) / Σ(weight over features that were present),
0, 1)`, where features with no available value contribute to neither
numerator nor denominator, and a zero denominator yields exactly `0.5`. -/
def spec_risk (weights : List (String × ℚ)) (data : PatientData) : ℚ :=
  let present := weights.filter (fun fw => (featureValue data fw.1).isSome)
  let denom := (present.map Prod.snd).sum
  let numer := (present.map (fun fw =>
    (((featureValue data fw.1).getD 0) / 100).clamp 0 1 * fw.2)).sum
  if denom = 0 then 1/2 else (numer / denom).clamp 0 1

/-- Sum of all configured feature weights (the denominator the source
actually uses). -/
def total_weight_of (weights : List (String × ℚ)) : ℚ :=
  (weights.map Prod.snd).sum

/-- Weighted sum over the features that have an available value (absent
features contribute zero to this numerator). -/
def present_weighted_sum (weights : List (String × ℚ)) (data : PatientData) : ℚ :=
  (weights.map (fun fw =>
    match featureValue data fw.1 with
    | some v => (v / 100).clamp 0 1 * fw.2
    | none => 0)).sum

/-- The inference result `process_update` builds for a non-blocked update. -/
def resultOf (eng : StreamingInference) (u : VitalUpdate) : InferenceResult :=
  { patient_id := u.patient_id, timestamp := u.timestamp, sepsis_risk := riskOf eng u,
    risk_level := RiskLevel.from_score (riskOf eng u),
    top_contributing_factors := (eng.calculate_risk u.to_patient_data).2,
    confidence := eng.calculate_confidence u.to_patient_data }

/-- The `SepsisRisk` alert `process_update` emits when the alerting
decision fires. -/
def sepsisAlertOf (eng : StreamingInference) (u : VitalUpdate) : Alert :=
  { patient_id := u.patient_id, alert_type := AlertType.sepsisRisk,
    message := "HIGH SEPSIS RISK: " ++ reprStr (riskOf eng u * 100) ++ "%",
    severity := if riskOf eng u ≥ 9/10 then AlertSeverity.emergency
                else AlertSeverity.critical,
    timestamp := u.timestamp,
    triggering_values := (eng.calculate_risk u.to_patient_data).2.take 3 }

/-! Concrete instances used by counterexamples and witnesses. -/

/-- Engine with one configured feature weight `("HR", 1.0)` and otherwise
default configuration. -/
def engC1 : StreamingInference :=
  { config := StreamingConfig.default, ethos_guard := EthosGuard.clinical_default,
    patient_states := fun _ => none, feature_weights := [("HR", 1)] }

/-- Guard rule that always fails, carrying explanation label "first". -/
def ruleFailFirst : EthosRule :=
  { id := "R1", description := "always fails", check := fun _ => false,
    explain := fun _ => CounterfactualExplanation.new "act" "first" "R1" "cf1" 1 }

/-- Guard rule that always fails, carrying explanation label "second". -/
def ruleFailSecond : EthosRule :=
  { id := "R2", description := "always fails", check := fun _ => false,
    explain := fun _ => CounterfactualExplanation.new "act" "second" "R2" "cf2" 2 }

/-- Engine with ethos disabled, alert threshold `0`, no feature weights. -/
def engW : StreamingInference :=
  { config := { sepsis_alert_threshold := 0, alert_cooldown_secs := 300,
                enable_ethos := false },
    ethos_guard := EthosGuard.clinical_default,
    patient_states := fun _ => none, feature_weights := [] }

/-- A concrete update with no vitals and no labs at timestamp 1000. -/
def uW : VitalUpdate :=
  { patient_id := "P1", timestamp := 1000, vitals := [], labs := [] }

/-! Theorems. -/

/-- Helper: the fold of `calculate_risk` accumulates the sum of all
configured weights in its first component and the weighted sum over
present features in its second. -/
theorem calc_fold_spec (data : PatientData) :
    ∀ (ws : List (String × ℚ)) (a b : ℚ) (cs : List (String × ℚ)),
      (ws.foldl (calculate_risk_step data) (a, b, cs)).1 = a + total_weight_of ws
      ∧ (ws.foldl (calculate_risk_step data) (a, b, cs)).2.1
          = b + present_weighted_sum ws data := by
  intro ws
  induction ws with
  | nil =>
      intro a b cs
      simp [total_weight_of, present_weighted_sum]
  | cons fw ws ih =>
      intro a b cs
      simp only [List.foldl_cons, calculate_risk_step]
      cases h : featureValue data fw.1 with
      | some v =>
          simp only [h]
          have hrec := ih (a + fw.2) (b + (v / 100).clamp 0 1 * fw.2)
            (cs ++ [(fw.1, (v / 100).clamp 0 1 * fw.2)])
          refine ⟨?_, ?_⟩
          · rw [hrec.1]
            simp [total_weight_of]
            ring
          · rw [hrec.2]
            simp [present_weighted_sum, h]
            ring
      | none =>
          simp only [h]
          have hrec := ih (a + fw.2) b cs
          refine ⟨?_, ?_⟩
          · rw [hrec.1]
            simp [total_weight_of]
            ring
          · rw [hrec.2]
            simp [present_weighted_sum, h]

/-- Claim C1 (counterexample): with the single configured weight
`("HR", 1.0)` and a snapshot with no data at all, the claimed formula
(denominator over present features only, neutral `0.5` when it is zero)
yields `0.5`, but `calculate_risk` yields `0`: the source adds every
configured weight to the denominator whether or not the feature has a
value. -/
theorem claim_C1_cex :
    (engC1.calculate_risk PatientData.new).1 = 0
    ∧ spec_risk engC1.feature_weights PatientData.new = 1/2
    ∧ (engC1.calculate_risk PatientData.new).1
        ≠ spec_risk engC1.feature_weights PatientData.new := by
  have h1 : (engC1.calculate_risk PatientData.new).1 = 0 := by
    norm_num [StreamingInference.calculate_risk, calculate_risk_step, featureValue,
      PatientData.get_vital, PatientData.get_lab, engC1, PatientData.new, Rat.clamp,
      List.lookup]
  have h2 : spec_risk engC1.feature_weights PatientData.new = 1/2 := by
    norm_num [spec_risk, featureValue, PatientData.get_vital, PatientData.get_lab,
      engC1, PatientData.new, List.lookup]
  exact ⟨h1, h2, by rw [h1, h2]; norm_num⟩

/-- Claim C1 (amended): the risk score equals
`clamp(Σ over present features (normalized·weight) / Σ over ALL
configured weights, 0, 1)`; features with no available value contribute
`0` to the numerator but their weights still count in the denominator,
and the engine returns `0.5` exactly when the total configured weight is
not positive (for example when no weights are configured). -/
theorem claim_C1_amended :
    ∀ (eng : StreamingInference) (data : PatientData),
      (eng.calculate_risk data).1 =
        if 0 < total_weight_of eng.feature_weights then
          ((present_weighted_sum eng.feature_weights data)
            / total_weight_of eng.feature_weights).clamp 0 1
        else 1/2 := by
  intro eng data
  have h := calc_fold_spec data eng.feature_weights 0 0 []
  simp only [StreamingInference.calculate_risk]
  rw [h.1, h.2]
  simp

/-- Claim C2 (counterexample): at threshold `t = 1` the claimed
equivalence `check(s) = (uncertainty(s) ≤ t)` fails on the empty
snapshot: its uncertainty is `1 ≤ 1`, yet `check` returns `false`. -/
theorem claim_C2_cex :
    ¬ (((MaxUncertaintyThreshold.mk 1).check PatientData.new = true) ↔
        uncertainty PatientData.new ≤ 1) := by
  decide

/-- Claim C2 (amended): for every threshold `t < 1` and snapshot `s`,
`check` succeeds iff `uncertainty s ≤ t`, and a snapshot with zero
vital-plus-lab fields has uncertainty exactly `1` and is always blocked.
(For `t ≥ 1` the empty snapshot is still blocked even though its
uncertainty does not exceed `t`.) -/
theorem claim_C2_amended :
    ∀ (t : ℚ) (s : PatientData), t < 1 →
      (((MaxUncertaintyThreshold.mk t).check s = true) ↔ uncertainty s ≤ t)
      ∧ (s.vitals.length + s.lab_values.length = 0 →
          uncertainty s = 1 ∧ (MaxUncertaintyThreshold.mk t).check s = false) := by
  intro t s ht
  constructor
  · unfold MaxUncertaintyThreshold.check uncertainty
    by_cases h0 : s.vitals.length + s.lab_values.length = 0
    · simp [h0, not_le]
      exact ht
    · have hpos : 0 < s.vitals.length + s.lab_values.length := Nat.pos_of_ne_zero h0
      simp [h0, hpos]
  · intro h0
    unfold MaxUncertaintyThreshold.check uncertainty
    simp [h0]

/-- Claim C2 (witness): at threshold `1/2 < 1` the empty snapshot has
uncertainty `1` and is blocked. -/
theorem claim_C2_witness :
    uncertainty PatientData.new = 1
    ∧ (MaxUncertaintyThreshold.mk (1/2)).check PatientData.new = false :=
  (claim_C2_amended (1/2) PatientData.new (by norm_num)).2 rfl

/-- Helper: the fail-fast rule scan returns `Allowed(action)` iff every
rule's check is true. -/
theorem checkList_allowed_iff {T : Type} (rs : List EthosRule) (data : PatientData)
    (action : T) :
    EthosGuard.checkList rs data action = EthosResult.allowed action ↔
      ∀ r ∈ rs, r.check data = true := by
  induction rs with
  | nil => simp [EthosGuard.checkList]
  | cons r rs ih =>
      simp only [EthosGuard.checkList]
      cases h : r.check data with
      | true => simp [h, ih]
      | false => simp [h]

/-- Helper: when rule `i` fails and every earlier rule passes, the scan
returns `Blocked` with rule `i`'s explanation. -/
theorem checkList_first_blocked {T : Type} (data : PatientData) (action : T) :
    ∀ (rs : List EthosRule) (i : ℕ) (hi : i < rs.length),
      (rs.get ⟨i, hi⟩).check data = false →
      (∀ j (hj : j < i), (rs.get ⟨j, Nat.lt_trans hj hi⟩).check data = true) →
      EthosGuard.checkList rs data action
        = EthosResult.blocked ((rs.get ⟨i, hi⟩).explain data) := by
  intro rs
  induction rs with
  | nil =>
      intro i hi
      exact absurd hi (Nat.not_lt_zero i)
  | cons r rs ih =>
      intro i hi hfail hbefore
      cases i with
      | zero =>
          simp only [List.get] at hfail ⊢
          simp [EthosGuard.checkList, hfail]
      | succ n =>
          have h0 : r.check data = true := by
            simpa using hbefore 0 (Nat.succ_pos n)
          have hn : n < rs.length := Nat.lt_of_succ_lt_succ hi
          have hrec := ih n hn (by simpa using hfail)
            (fun j hj => by simpa using hbefore (j + 1) (Nat.succ_lt_succ hj))
          simp only [EthosGuard.checkList, h0, if_true]
          simpa using hrec

/-- Claim C3: `EthosGuard::check` (the spec's `evaluate_first`) returns
`Allowed` with the unchanged action payload iff every rule's check is
true, and returns `Blocked` carrying the explanation of the first rule
in configured order whose check is false. -/
theorem claim_C3 :
    ∀ (g : EthosGuard) (data : PatientData) (T : Type) (action : T),
      (g.check data action = EthosResult.allowed action ↔
        ∀ r ∈ g.rules, r.check data = true)
      ∧ (∀ (i : ℕ) (hi : i < g.rules.length),
          (g.rules.get ⟨i, hi⟩).check data = false →
          (∀ j (hj : j < i), (g.rules.get ⟨j, Nat.lt_trans hj hi⟩).check data = true) →
          g.check data action
            = EthosResult.blocked ((g.rules.get ⟨i, hi⟩).explain data)) := by
  intro g data T action
  exact ⟨checkList_allowed_iff g.rules data action,
    fun i hi hfail hbefore => checkList_first_blocked data action g.rules i hi hfail hbefore⟩

/-- Claim C3 (witness): with two rules that both fail, the guard returns
the first rule's explanation. -/
theorem claim_C3_witness :
    EthosGuard.check ⟨[ruleFailFirst, ruleFailSecond]⟩ PatientData.new () =
      EthosResult.blocked (ruleFailFirst.explain PatientData.new) := by
  have h := (claim_C3 ⟨[ruleFailFirst, ruleFailSecond]⟩ PatientData.new Unit ()).2 0
    (by simp) (by simp [ruleFailFirst]) (fun j hj => absurd hj (Nat.not_lt_zero j))
  simpa using h

/-- Claim C7: risk-level discretization follows left-closed/right-open
intervals except the top; in particular `0.25` maps to `Moderate` and
`0.75` to `Critical`. -/
theorem claim_C7 :
    (∀ s : ℚ, 0 ≤ s → s ≤ 1 →
      ((RiskLevel.from_score s = RiskLevel.low ↔ s < 1/4)
       ∧ (RiskLevel.from_score s = RiskLevel.moderate ↔ 1/4 ≤ s ∧ s < 1/2)
       ∧ (RiskLevel.from_score s = RiskLevel.high ↔ 1/2 ≤ s ∧ s < 3/4)
       ∧ (RiskLevel.from_score s = RiskLevel.critical ↔ 3/4 ≤ s)))
    ∧ RiskLevel.from_score (1/4) = RiskLevel.moderate
    ∧ RiskLevel.from_score (3/4) = RiskLevel.critical := by
  refine ⟨fun s h0 h1 => ?_, by norm_num [RiskLevel.from_score],
    by norm_num [RiskLevel.from_score]⟩
  unfold RiskLevel.from_score
  split_ifs with h2 h3 h4 <;>
    refine ⟨?_, ?_, ?_, ?_⟩ <;> simp <;> intros <;>
    first | linarith | (constructor <;> linarith)

/-- Claim C7 (witness): score `0` is in `[0,1]` and maps to `Low`. -/
theorem claim_C7_witness : RiskLevel.from_score 0 = RiskLevel.low :=
  ((claim_C7.1 0 (le_refl 0) (by norm_num)).1).mpr (by norm_num)

/-- Claim C8: contrary to the claim, the guard-decision sum type does
expose a convenience accessor that aborts on `Blocked`:
`EthosResult::unwrap` panics ("Action blocked: …") whenever the decision
is `Blocked`, modelled here as producing no value (`none`). -/
theorem claim_C8_bug :
    EthosResult.unwrap
      ((EthosResult.blocked
        ((RequireCriticalVitals.mk ["MAP", "HR"]).explain PatientData.new))
        : EthosResult PUnit) = none := rfl

/-- Claim C9: `process_update` is total and always returns the success
variant of its declared `Result`: every return site of the source wraps
its value in `Ok`, so the error branch is unreachable. -/
theorem claim_C9 :
    ∀ (eng : StreamingInference) (u : VitalUpdate),
      (eng.process_update u).isOk = true := by
  intro eng u
  rfl

/-- Helper: the history-update stage does not touch `last_alert`. -/
theorem updatedState_last_alert (eng : StreamingInference) (u : VitalUpdate) :
    (eng.updatedState u).last_alert = lastAlertOf eng u.patient_id := by
  simp only [StreamingInference.updatedState, lastAlertOf]
  split <;> rfl

/-- Helper: the history-update stage performs exactly one capped push. -/
theorem updatedState_history (eng : StreamingInference) (u : VitalUpdate) :
    (eng.updatedState u).vital_history = pushCap (historyOf eng u.patient_id) u := by
  simp only [StreamingInference.updatedState, pushCap, historyOf]
  split <;> rename_i h <;> simp [h]

/-- Helper: last-alert read in a state map after a save. -/
theorem lastAlertOf_saveState (eng : StreamingInference) (pid : String)
    (st : PatientState) (p : String) :
    lastAlertOf (eng.saveState pid st) p =
      if p = pid then st.last_alert else lastAlertOf eng p := by
  unfold lastAlertOf StreamingInference.saveState
  by_cases h : p = pid <;> simp [h]

/-- Helper: history read in a state map after a save. -/
theorem historyOf_saveState (eng : StreamingInference) (pid : String)
    (st : PatientState) (p : String) :
    historyOf (eng.saveState pid st) p =
      if p = pid then st.vital_history else historyOf eng p := by
  unfold historyOf StreamingInference.saveState
  by_cases h : p = pid <;> simp [h]

/-- Helper: the alerting stage does not change the configuration. -/
theorem process_proceed_config (eng : StreamingInference) (u : VitalUpdate)
    (st : PatientState) : (eng.process_proceed u st).1.config = eng.config := by
  simp only [StreamingInference.process_proceed]
  split
  · split <;> rfl
  · rfl

/-- Helper: one processed update does not change the configuration. -/
theorem stepEngine_config (eng : StreamingInference) (u : VitalUpdate) :
    (eng.stepEngine u).config = eng.config := by
  simp only [StreamingInference.stepEngine, StreamingInference.process_update_inner]
  split
  · split
    · rfl
    · exact process_proceed_config eng u (eng.updatedState u)
  · exact process_proceed_config eng u (eng.updatedState u)

/-- Helper: on a blocked update, `process_update` saves the
history-updated state, returns no result and exactly the one
`EthosBlocked` warning alert. -/
theorem step_blocked (eng : StreamingInference) (u : VitalUpdate)
    (e : CounterfactualExplanation)
    (hen : eng.config.enable_ethos = true)
    (hg : eng.ethos_guard.check u.to_patient_data () = EthosResult.blocked e) :
    eng.process_update_inner u =
      (eng.saveState u.patient_id (eng.updatedState u), none,
       [{ patient_id := u.patient_id, alert_type := AlertType.ethosBlocked,
          message := "Prediction blocked: " ++ e.rule_violated,
          severity := AlertSeverity.warning, timestamp := u.timestamp,
          triggering_values := [] }]) := by
  simp [StreamingInference.process_update_inner, hen, hg]

/-- Helper: when the guard does not block (or is disabled), `process_update`
is the alerting stage applied to the history-updated state. -/
theorem step_not_blocked (eng : StreamingInference) (u : VitalUpdate)
    (h : eng.config.enable_ethos = true →
      (eng.ethos_guard.check u.to_patient_data ()).is_allowed = true) :
    eng.process_update_inner u = eng.process_proceed u (eng.updatedState u) := by
  simp only [StreamingInference.process_update_inner]
  by_cases hen : eng.config.enable_ethos = true
  · cases hg : eng.ethos_guard.check u.to_patient_data () with
    | allowed v => simp [hen, hg]
    | blocked e =>
        have hcon := h hen
        rw [hg] at hcon
        simp [EthosResult.is_allowed] at hcon
  · simp [hen]

/-- Helper: alerting stage when the risk is below the threshold — store
the risk, no alert. -/
theorem proceed_below (eng : StreamingInference) (u : VitalUpdate) (st : PatientState)
    (h1 : ¬ riskOf eng u ≥ eng.config.sepsis_alert_threshold) :
    eng.process_proceed u st =
      (eng.saveState u.patient_id { st with current_risk := riskOf eng u },
       some (resultOf eng u), []) := by
  simp only [riskOf] at h1
  simp only [StreamingInference.process_proceed, resultOf, riskOf]
  rw [if_neg h1]

/-- Helper: alerting stage when the risk reaches the threshold but the
cooldown suppresses the alert — store the risk, keep `last_alert`, no
alert. -/
theorem proceed_hold (eng : StreamingInference) (u : VitalUpdate) (st : PatientState)
    (t : ℤ)
    (h1 : riskOf eng u ≥ eng.config.sepsis_alert_threshold)
    (h2 : st.last_alert = some t)
    (h3 : ¬ u.timestamp - t ≥ (eng.config.alert_cooldown_secs : ℤ)) :
    eng.process_proceed u st =
      (eng.saveState u.patient_id { st with current_risk := riskOf eng u },
       some (resultOf eng u), []) := by
  simp only [riskOf] at h1
  simp only [StreamingInference.process_proceed, resultOf, riskOf]
  rw [if_pos h1]
  simp [h2, h3]

/-- Helper: alerting stage when the risk reaches the threshold and no
previous alert exists — record the alert timestamp and emit the
`SepsisRisk` alert. -/
theorem proceed_fire_none (eng : StreamingInference) (u : VitalUpdate) (st : PatientState)
    (h1 : riskOf eng u ≥ eng.config.sepsis_alert_threshold)
    (h2 : st.last_alert = none) :
    eng.process_proceed u st =
      (eng.saveState u.patient_id
        { st with current_risk := riskOf eng u, last_alert := some u.timestamp },
       some (resultOf eng u), [sepsisAlertOf eng u]) := by
  simp only [riskOf] at h1
  simp only [StreamingInference.process_proceed, resultOf, riskOf, sepsisAlertOf]
  rw [if_pos h1]
  simp [h2]

/-- Helper: alerting stage when the risk reaches the threshold and the
cooldown has elapsed — record the alert timestamp and emit the
`SepsisRisk` alert. -/
theorem proceed_fire_some (eng : StreamingInference) (u : VitalUpdate) (st : PatientState)
    (t : ℤ)
    (h1 : riskOf eng u ≥ eng.config.sepsis_alert_threshold)
    (h2 : st.last_alert = some t)
    (h3 : u.timestamp - t ≥ (eng.config.alert_cooldown_secs : ℤ)) :
    eng.process_proceed u st =
      (eng.saveState u.patient_id
        { st with current_risk := riskOf eng u, last_alert := some u.timestamp },
       some (resultOf eng u), [sepsisAlertOf eng u]) := by
  simp only [riskOf] at h1
  simp only [StreamingInference.process_proceed, resultOf, riskOf, sepsisAlertOf]
  rw [if_pos h1]
  simp [h2, h3]

/-- Helper: the alerting stage always returns a result and either no alert
or exactly the `SepsisRisk` alert. -/
theorem proceed_output_cases (eng : StreamingInference) (u : VitalUpdate)
    (st : PatientState) :
    (eng.process_proceed u st).2 = (some (resultOf eng u), [])
    ∨ (eng.process_proceed u st).2 = (some (resultOf eng u), [sepsisAlertOf eng u]) := by
  by_cases h1 : riskOf eng u ≥ eng.config.sepsis_alert_threshold
  · cases h2 : st.last_alert with
    | none => right; rw [proceed_fire_none eng u st h1 h2]
    | some t =>
        by_cases h3 : u.timestamp - t ≥ (eng.config.alert_cooldown_secs : ℤ)
        · right; rw [proceed_fire_some eng u st t h1 h2 h3]
        · left; rw [proceed_hold eng u st t h1 h2 h3]
  · left; rw [proceed_below eng u st h1]

/-- Claim C6: on an update blocked by the enabled guard rule set, the
engine returns no inference result and exactly one alert of category
`EthosBlocked` (the spec's GuardBlocked) with severity `Warning`, and
the risk/confidence computations are never performed: the output is
independent of the configured feature weights. -/
theorem claim_C6 :
    ∀ (eng : StreamingInference) (u : VitalUpdate) (e : CounterfactualExplanation),
      eng.config.enable_ethos = true →
      eng.ethos_guard.check u.to_patient_data () = EthosResult.blocked e →
      (eng.stepOutput u).1 = none
      ∧ (eng.stepOutput u).2 =
          [{ patient_id := u.patient_id, alert_type := AlertType.ethosBlocked,
             message := "Prediction blocked: " ++ e.rule_violated,
             severity := AlertSeverity.warning, timestamp := u.timestamp,
             triggering_values := [] }]
      ∧ (∀ w, ({ eng with feature_weights := w } : StreamingInference).stepOutput u
            = eng.stepOutput u) := by
  intro eng u e hen hg
  have hb := step_blocked eng u e hen hg
  refine ⟨?_, ?_, ?_⟩
  · simp only [StreamingInference.stepOutput, hb]
  · simp only [StreamingInference.stepOutput, hb]
  · intro w
    have hb2 := step_blocked { eng with feature_weights := w } u e hen hg
    simp only [StreamingInference.stepOutput, hb, hb2]

/-- Claim C6 (witness): the default engine blocks the empty update
(missing MAP and HR) and yields no result and one `EthosBlocked` alert. -/
theorem claim_C6_witness :
    ((StreamingInference.new StreamingConfig.default).stepOutput uW).1 = none
    ∧ (((StreamingInference.new StreamingConfig.default).stepOutput uW).2.map
        Alert.alert_type) = [AlertType.ethosBlocked] := by
  have h := claim_C6 (StreamingInference.new StreamingConfig.default) uW
    ((RequireCriticalVitals.mk ["MAP", "HR"]).explain uW.to_patient_data) rfl rfl
  exact ⟨h.1, by rw [h.2.1]; rfl⟩

/-- Claim C10: a processed update yields at most one alert: exactly one
`EthosBlocked` alert (and no result) when the enabled guard blocks, and
otherwise either no alert or exactly one `SepsisRisk` alert. -/
theorem claim_C10 :
    ∀ (eng : StreamingInference) (u : VitalUpdate),
      (eng.stepOutput u).2.length ≤ 1
      ∧ (eng.config.enable_ethos = true ∧
          (eng.ethos_guard.check u.to_patient_data ()).is_blocked = true →
          (eng.stepOutput u).1 = none
          ∧ (eng.stepOutput u).2.map Alert.alert_type = [AlertType.ethosBlocked])
      ∧ (¬ (eng.config.enable_ethos = true ∧
            (eng.ethos_guard.check u.to_patient_data ()).is_blocked = true) →
          (eng.stepOutput u).2 = []
          ∨ (eng.stepOutput u).2.map Alert.alert_type = [AlertType.sepsisRisk]) := by
  intro eng u
  by_cases hen : eng.config.enable_ethos = true
  · cases hg : eng.ethos_guard.check u.to_patient_data () with
    | blocked e =>
        have hb := step_blocked eng u e hen hg
        have hout : eng.stepOutput u =
            (none,
             [{ patient_id := u.patient_id, alert_type := AlertType.ethosBlocked,
                message := "Prediction blocked: " ++ e.rule_violated,
                severity := AlertSeverity.warning, timestamp := u.timestamp,
                triggering_values := [] }]) := by
          simp only [StreamingInference.stepOutput, hb]
        refine ⟨by rw [hout]; simp, fun _ => ⟨by rw [hout], by rw [hout]; rfl⟩,
          fun hcon => absurd ⟨hen, rfl⟩ hcon⟩
    | allowed v =>
        have hnb := step_not_blocked eng u (fun _ => by rw [hg]; rfl)
        have hout : eng.stepOutput u = (eng.process_proceed u (eng.updatedState u)).2 := by
          simp only [StreamingInference.stepOutput, hnb]
        have hcases := proceed_output_cases eng u (eng.updatedState u)
        have hnotb : ¬ (eng.config.enable_ethos = true ∧
            (EthosResult.allowed v).is_blocked = true) := by
          rintro ⟨-, hb⟩
          simp [EthosResult.is_blocked] at hb
        rcases hcases with hc | hc
        · exact ⟨by rw [hout, hc]; simp, fun hcon => absurd hcon hnotb,
            fun _ => Or.inl (by rw [hout, hc])⟩
        · exact ⟨by rw [hout, hc]; simp, fun hcon => absurd hcon hnotb,
            fun _ => Or.inr (by rw [hout, hc]; rfl)⟩
  · have hnb := step_not_blocked eng u (fun hcon => absurd hcon hen)
    have hout : eng.stepOutput u = (eng.process_proceed u (eng.updatedState u)).2 := by
      simp only [StreamingInference.stepOutput, hnb]
    have hnotb : ¬ (eng.config.enable_ethos = true ∧
        (eng.ethos_guard.check u.to_patient_data ()).is_blocked = true) :=
      fun hcon => absurd hcon.1 hen
    rcases proceed_output_cases eng u (eng.updatedState u) with hc | hc
    · exact ⟨by rw [hout, hc]; simp, fun hcon => absurd hcon hnotb,
        fun _ => Or.inl (by rw [hout, hc])⟩
    · exact ⟨by rw [hout, hc]; simp, fun hcon => absurd hcon hnotb,
        fun _ => Or.inr (by rw [hout, hc]; rfl)⟩

/-- Claim C10 (witness): on the ethos-disabled single-patient engine the
alert list of the processed empty update is empty or a single
`SepsisRisk` alert. -/
theorem claim_C10_witness :
    (engW.stepOutput uW).2 = []
    ∨ (engW.stepOutput uW).2.map Alert.alert_type = [AlertType.sepsisRisk] :=
  (claim_C10 engW uW).2.2 (fun hcon => absurd hcon.1 (by decide))

/-- Helper: the capped push keeps the history length at most 24. -/
theorem pushCap_length_le (h : List VitalUpdate) (u : VitalUpdate)
    (hle : h.length ≤ 24) : (pushCap h u).length ≤ 24 := by
  simp only [pushCap]
  split <;> rename_i hc <;> simp_all

/-- Helper: on histories of length at most 24 the capped push keeps
exactly the suffix of the last 24 entries. -/
theorem pushCap_eq (h : List VitalUpdate) (u : VitalUpdate) (hle : h.length ≤ 24) :
    pushCap h u = (h ++ [u]).drop ((h ++ [u]).length - 24) := by
  have hlen : (h ++ [u]).length = h.length + 1 := by simp
  simp only [pushCap]
  split <;> rename_i hc
  · have h1 : (h ++ [u]).length - 24 = 1 := by omega
    rw [h1]
  · have h0 : (h ++ [u]).length - 24 = 0 := by omega
    rw [h0, List.drop_zero]

/-- Helper: folding capped pushes from a short history keeps exactly the
last 24 entries of the concatenation. -/
theorem foldl_pushCap_eq :
    ∀ (l h : List VitalUpdate), h.length ≤ 24 →
      l.foldl pushCap h = (h ++ l).drop ((h ++ l).length - 24) := by
  intro l
  induction l with
  | nil =>
      intro h hle
      have h0 : (h ++ ([] : List VitalUpdate)).length - 24 = 0 := by simp; omega
      simp only [List.foldl_nil, List.append_nil] at h0 ⊢
      rw [h0, List.drop_zero]
  | cons u l ih =>
      intro h hle
      rw [List.foldl_cons, ih (pushCap h u) (pushCap_length_le h u hle), pushCap_eq h u hle]
      have hx : h ++ u :: l = (h ++ [u]) ++ l := by simp
      rw [hx]
      have hd : (h ++ [u]).length - 24 ≤ (h ++ [u]).length := Nat.sub_le _ _
      rw [← List.drop_append_of_le_length hd, List.drop_drop]
      congr 1
      have hXlen : (h ++ [u]).length = h.length + 1 := by simp
      simp only [List.length_drop, List.length_append]
      simp only [List.length_append] at hXlen
      omega

/-- Helper: one processed update pushes onto exactly the updated patient's
history and leaves every other patient's history unchanged. -/
theorem step_history (eng : StreamingInference) (u : VitalUpdate) (p : String) :
    historyOf (eng.stepEngine u) p =
      if p = u.patient_id then pushCap (historyOf eng u.patient_id) u
      else historyOf eng p := by
  have hmain : ∃ st2 : PatientState, eng.stepEngine u = eng.saveState u.patient_id st2
      ∧ st2.vital_history = pushCap (historyOf eng u.patient_id) u := by
    by_cases hen : eng.config.enable_ethos = true
    · cases hg : eng.ethos_guard.check u.to_patient_data () with
      | blocked e =>
          refine ⟨eng.updatedState u, ?_, updatedState_history eng u⟩
          simp only [StreamingInference.stepEngine, step_blocked eng u e hen hg]
      | allowed v =>
          have hnb := step_not_blocked eng u (fun _ => by rw [hg]; rfl)
          have hse : eng.stepEngine u = (eng.process_proceed u (eng.updatedState u)).1 := by
            simp only [StreamingInference.stepEngine, hnb]
          by_cases h1 : riskOf eng u ≥ eng.config.sepsis_alert_threshold
          · cases h2 : (eng.updatedState u).last_alert with
            | none =>
                rw [proceed_fire_none eng u (eng.updatedState u) h1 h2] at hse
                exact ⟨_, hse, updatedState_history eng u⟩
            | some t =>
                by_cases h3 : u.timestamp - t ≥ (eng.config.alert_cooldown_secs : ℤ)
                · rw [proceed_fire_some eng u (eng.updatedState u) t h1 h2 h3] at hse
                  exact ⟨_, hse, updatedState_history eng u⟩
                · rw [proceed_hold eng u (eng.updatedState u) t h1 h2 h3] at hse
                  exact ⟨_, hse, updatedState_history eng u⟩
          · rw [proceed_below eng u (eng.updatedState u) h1] at hse
            exact ⟨_, hse, updatedState_history eng u⟩
    · have hnb := step_not_blocked eng u (fun hcon => absurd hcon hen)
      have hse : eng.stepEngine u = (eng.process_proceed u (eng.updatedState u)).1 := by
        simp only [StreamingInference.stepEngine, hnb]
      by_cases h1 : riskOf eng u ≥ eng.config.sepsis_alert_threshold
      · cases h2 : (eng.updatedState u).last_alert with
        | none =>
            rw [proceed_fire_none eng u (eng.updatedState u) h1 h2] at hse
            exact ⟨_, hse, updatedState_history eng u⟩
        | some t =>
            by_cases h3 : u.timestamp - t ≥ (eng.config.alert_cooldown_secs : ℤ)
            · rw [proceed_fire_some eng u (eng.updatedState u) t h1 h2 h3] at hse
              exact ⟨_, hse, updatedState_history eng u⟩
            · rw [proceed_hold eng u (eng.updatedState u) t h1 h2 h3] at hse
              exact ⟨_, hse, updatedState_history eng u⟩
      · rw [proceed_below eng u (eng.updatedState u) h1] at hse
        exact ⟨_, hse, updatedState_history eng u⟩
  obtain ⟨st2, heq, hh⟩ := hmain
  rw [heq, historyOf_saveState, hh]

/-- Helper: after a run, each patient's stored history is the fold of
capped pushes over that patient's updates. -/
theorem run_history (p : String) :
    ∀ (us : List VitalUpdate) (eng : StreamingInference),
      historyOf (eng.runEngine us) p =
        (us.filter (fun u => u.patient_id == p)).foldl pushCap (historyOf eng p) := by
  intro us
  induction us with
  | nil =>
      intro eng
      simp [StreamingInference.runEngine]
  | cons u us ih =>
      intro eng
      simp only [StreamingInference.runEngine]
      rw [ih (eng.stepEngine u), step_history]
      by_cases h : u.patient_id = p
      · subst h
        simp
      · rw [if_neg (fun hc => h hc.symm)]
        simp [h]

/-- Claim C4: starting from a fresh engine, after any sequence of
processed updates each patient's stored history has length at most 24
and holds exactly the most recent (at most) 24 of that patient's updates
in arrival order, the oldest evicted first. -/
theorem claim_C4 :
    ∀ (cfg : StreamingConfig) (w : List (String × ℚ)) (us : List VitalUpdate) (p : String),
      (historyOf (((StreamingInference.new cfg).set_feature_weights w).runEngine us) p).length
          ≤ 24
      ∧ historyOf (((StreamingInference.new cfg).set_feature_weights w).runEngine us) p =
          (us.filter (fun u => u.patient_id == p)).drop
            ((us.filter (fun u => u.patient_id == p)).length - 24) := by
  intro cfg w us p
  have h0 : historyOf ((StreamingInference.new cfg).set_feature_weights w) p = [] := rfl
  have h := run_history p us ((StreamingInference.new cfg).set_feature_weights w)
  rw [h0] at h
  have h2 := foldl_pushCap_eq (us.filter (fun u => u.patient_id == p)) [] (by simp)
  simp only [List.nil_append] at h2
  rw [h, h2]
  refine ⟨?_, rfl⟩
  simp only [List.length_drop]
  omega

/-- Helper: one non-blocked processed update either emits no `SepsisRisk`
alert for `p` and keeps `p`'s last-alert timestamp, or emits exactly one
at the update's timestamp, records it, and the previous timestamp (if
any) was at least a cooldown earlier. -/
theorem step_sepsis_proceed (eng : StreamingInference) (u : VitalUpdate) (p : String)
    (hnb : eng.process_update_inner u = eng.process_proceed u (eng.updatedState u)) :
    (sepsisTimes p [eng.stepOutput u] = []
      ∧ lastAlertOf (eng.stepEngine u) p = lastAlertOf eng p)
    ∨ (sepsisTimes p [eng.stepOutput u] = [u.timestamp]
       ∧ lastAlertOf (eng.stepEngine u) p = some u.timestamp
       ∧ (lastAlertOf eng p = none
          ∨ ∃ t, lastAlertOf eng p = some t
              ∧ u.timestamp - t ≥ (eng.config.alert_cooldown_secs : ℤ))) := by
  have hout : eng.stepOutput u = (eng.process_proceed u (eng.updatedState u)).2 := by
    simp only [StreamingInference.stepOutput, hnb]
  have heng : eng.stepEngine u = (eng.process_proceed u (eng.updatedState u)).1 := by
    simp only [StreamingInference.stepEngine, hnb]
  by_cases h1 : riskOf eng u ≥ eng.config.sepsis_alert_threshold
  · cases h2 : (eng.updatedState u).last_alert with
    | none =>
        have hp := proceed_fire_none eng u (eng.updatedState u) h1 h2
        rw [hp] at hout heng
        by_cases hpid : p = u.patient_id
        · subst hpid
          right
          refine ⟨?_, ?_, ?_⟩
          · rw [hout]; simp [sepsisTimes, sepsisAlertOf]
          · rw [heng, lastAlertOf_saveState]; simp
          · left
            rw [← updatedState_last_alert eng u]
            exact h2
        · left
          have hnpe : ¬ (u.patient_id = p) := fun h => hpid h.symm
          refine ⟨?_, ?_⟩
          · rw [hout]; simp [sepsisTimes, sepsisAlertOf, hnpe]
          · rw [heng, lastAlertOf_saveState, if_neg hpid]
    | some t =>
        by_cases h3 : u.timestamp - t ≥ (eng.config.alert_cooldown_secs : ℤ)
        · have hp := proceed_fire_some eng u (eng.updatedState u) t h1 h2 h3
          rw [hp] at hout heng
          by_cases hpid : p = u.patient_id
          · subst hpid
            right
            refine ⟨?_, ?_, ?_⟩
            · rw [hout]; simp [sepsisTimes, sepsisAlertOf]
            · rw [heng, lastAlertOf_saveState]; simp
            · right
              exact ⟨t, by rw [← updatedState_last_alert eng u]; exact h2, h3⟩
          · left
            have hnpe : ¬ (u.patient_id = p) := fun h => hpid h.symm
            refine ⟨?_, ?_⟩
            · rw [hout]; simp [sepsisTimes, sepsisAlertOf, hnpe]
            · rw [heng, lastAlertOf_saveState, if_neg hpid]
        · have hp := proceed_hold eng u (eng.updatedState u) t h1 h2 h3
          rw [hp] at hout heng
          left
          refine ⟨?_, ?_⟩
          · rw [hout]; simp [sepsisTimes]
          · rw [heng, lastAlertOf_saveState]
            by_cases hpid : p = u.patient_id
            · subst hpid
              simp [updatedState_last_alert]
            · rw [if_neg hpid]
  · have hp := proceed_below eng u (eng.updatedState u) h1
    rw [hp] at hout heng
    left
    refine ⟨?_, ?_⟩
    · rw [hout]; simp [sepsisTimes]
    · rw [heng, lastAlertOf_saveState]
      by_cases hpid : p = u.patient_id
      · subst hpid
        simp [updatedState_last_alert]
      · rw [if_neg hpid]

/-- Helper: the `step_sepsis_proceed` disjunction holds for every processed
update (blocked updates emit no `SepsisRisk` alert and keep the
last-alert timestamp). -/
theorem step_sepsis (eng : StreamingInference) (u : VitalUpdate) (p : String) :
    (sepsisTimes p [eng.stepOutput u] = []
      ∧ lastAlertOf (eng.stepEngine u) p = lastAlertOf eng p)
    ∨ (sepsisTimes p [eng.stepOutput u] = [u.timestamp]
       ∧ lastAlertOf (eng.stepEngine u) p = some u.timestamp
       ∧ (lastAlertOf eng p = none
          ∨ ∃ t, lastAlertOf eng p = some t
              ∧ u.timestamp - t ≥ (eng.config.alert_cooldown_secs : ℤ))) := by
  by_cases hen : eng.config.enable_ethos = true
  · cases hg : eng.ethos_guard.check u.to_patient_data () with
    | blocked e =>
        have hb := step_blocked eng u e hen hg
        left
        constructor
        · simp only [StreamingInference.stepOutput, hb]
          simp [sepsisTimes]
        · simp only [StreamingInference.stepEngine, hb]
          rw [lastAlertOf_saveState]
          by_cases hpid : p = u.patient_id
          · subst hpid
            simp [updatedState_last_alert]
          · rw [if_neg hpid]
    | allowed v =>
        exact step_sepsis_proceed eng u p (step_not_blocked eng u (fun _ => by rw [hg]; rfl))
  · exact step_sepsis_proceed eng u p (step_not_blocked eng u (fun hcon => absurd hcon hen))

/-- Helper: along any run, the last recorded alert timestamp followed by
the emitted `SepsisRisk` alert timestamps for a patient form a chain with
gaps of at least the cooldown. -/
theorem run_sepsis_chain (p : String) :
    ∀ (us : List VitalUpdate) (eng : StreamingInference),
      List.Chain' (fun a b => a + (eng.config.alert_cooldown_secs : ℤ) ≤ b)
        ((lastAlertOf eng p).toList ++ sepsisTimes p (eng.runOutputs us)) := by
  intro us
  induction us with
  | nil =>
      intro eng
      cases h : lastAlertOf eng p <;> simp [StreamingInference.runOutputs, sepsisTimes, h]
  | cons u us ih =>
      intro eng
      have hsplit : sepsisTimes p (eng.runOutputs (u :: us)) =
          sepsisTimes p [eng.stepOutput u]
            ++ sepsisTimes p ((eng.stepEngine u).runOutputs us) := by
        simp [StreamingInference.runOutputs, sepsisTimes]
      have hcfg := stepEngine_config eng u
      have ihs := ih (eng.stepEngine u)
      rw [hcfg] at ihs
      rw [hsplit]
      rcases step_sepsis eng u p with ⟨he, hla⟩ | ⟨he, hla, hcool⟩
      · rw [he, List.nil_append, ← hla]
        exact ihs
      · rw [he]
        rw [hla] at ihs
        rcases hcool with hnone | ⟨t, hsome, hge⟩
        · rw [hnone]
          simpa using ihs
        · rw [hsome]
          simp only [Option.toList_some, List.singleton_append, List.cons_append] at ihs ⊢
          exact List.chain'_cons.mpr ⟨by omega, by simpa using ihs⟩

/-- Claim C5: for any engine state with a non-blocking (or disabled)
guard, a `SepsisRisk` alert is emitted on a processed update iff the
computed risk reaches the configured threshold and the cooldown permits
it (no previous alert, or at least the cooldown elapsed); on firing the
alert timestamp is recorded; consequently along every run from a fresh
engine, any two `SepsisRisk` alert timestamps for the same patient are
separated by at least the cooldown. -/
theorem claim_C5 :
    (∀ (eng : StreamingInference) (u : VitalUpdate),
      (eng.config.enable_ethos = true →
        (eng.ethos_guard.check u.to_patient_data ()).is_allowed = true) →
      (hasSepsisAlert (eng.stepOutput u) u.patient_id = true ↔
        riskOf eng u ≥ eng.config.sepsis_alert_threshold ∧ cooldownOk eng u)
      ∧ (hasSepsisAlert (eng.stepOutput u) u.patient_id = true →
          lastAlertOf (eng.stepEngine u) u.patient_id = some u.timestamp))
    ∧ (∀ (cfg : StreamingConfig) (w : List (String × ℚ)) (us : List VitalUpdate)
        (p : String),
        List.Pairwise (fun a b => a + (cfg.alert_cooldown_secs : ℤ) ≤ b)
          (sepsisTimes p
            (((StreamingInference.new cfg).set_feature_weights w).runOutputs us))) := by
  constructor
  · intro eng u hguard
    have hnb := step_not_blocked eng u hguard
    have hout : eng.stepOutput u = (eng.process_proceed u (eng.updatedState u)).2 := by
      simp only [StreamingInference.stepOutput, hnb]
    have heng : eng.stepEngine u = (eng.process_proceed u (eng.updatedState u)).1 := by
      simp only [StreamingInference.stepEngine, hnb]
    by_cases h1 : riskOf eng u ≥ eng.config.sepsis_alert_threshold
    · cases hla : lastAlertOf eng u.patient_id with
      | none =>
          have h2 : (eng.updatedState u).last_alert = none := by
            rw [updatedState_last_alert, hla]
          have hp := proceed_fire_none eng u (eng.updatedState u) h1 h2
          rw [hp] at hout heng
          have hemit : hasSepsisAlert (eng.stepOutput u) u.patient_id = true := by
            rw [hout]; simp [hasSepsisAlert, sepsisAlertOf]
          refine ⟨iff_of_true hemit ⟨h1, Or.inl hla⟩, fun _ => ?_⟩
          rw [heng, lastAlertOf_saveState]
          simp
      | some t =>
          have h2 : (eng.updatedState u).last_alert = some t := by
            rw [updatedState_last_alert, hla]
          by_cases h3 : u.timestamp - t ≥ (eng.config.alert_cooldown_secs : ℤ)
          · have hp := proceed_fire_some eng u (eng.updatedState u) t h1 h2 h3
            rw [hp] at hout heng
            have hemit : hasSepsisAlert (eng.stepOutput u) u.patient_id = true := by
              rw [hout]; simp [hasSepsisAlert, sepsisAlertOf]
            refine ⟨iff_of_true hemit ⟨h1, Or.inr ⟨t, hla, h3⟩⟩, fun _ => ?_⟩
            rw [heng, lastAlertOf_saveState]
            simp
          · have hp := proceed_hold eng u (eng.updatedState u) t h1 h2 h3
            rw [hp] at hout heng
            have hnem : hasSepsisAlert (eng.stepOutput u) u.patient_id = false := by
              rw [hout]; simp [hasSepsisAlert]
            refine ⟨iff_of_false (by simp [hnem]) ?_,
              fun hemit => absurd hemit (by simp [hnem])⟩
            rintro ⟨-, hcool⟩
            rcases hcool with hnone | ⟨t2, hsome, hge⟩
            · rw [hla] at hnone
              exact Option.noConfusion hnone
            · rw [hla] at hsome
              injection hsome with ht
              subst ht
              exact h3 hge
    · have hp := proceed_below eng u (eng.updatedState u) h1
      rw [hp] at hout heng
      have hnem : hasSepsisAlert (eng.stepOutput u) u.patient_id = false := by
        rw [hout]; simp [hasSepsisAlert]
      exact ⟨iff_of_false (by simp [hnem]) (fun hc => h1 hc.1),
        fun hemit => absurd hemit (by simp [hnem])⟩
  · intro cfg w us p
    have hchain := run_sepsis_chain p us ((StreamingInference.new cfg).set_feature_weights w)
    have hc : ((StreamingInference.new cfg).set_feature_weights w).config = cfg := rfl
    rw [hc] at hchain
    have h0 : lastAlertOf ((StreamingInference.new cfg).set_feature_weights w) p = none := rfl
    rw [h0] at hchain
    simp only [Option.toList_none, List.nil_append] at hchain
    haveI : IsTrans ℤ (fun a b => a + (cfg.alert_cooldown_secs : ℤ) ≤ b) :=
      ⟨fun a b c hab hbc => by omega⟩
    exact List.chain'_iff_pairwise.mp hchain

/-- Claim C5 (witness): on the ethos-disabled threshold-0 engine, the
empty update at timestamp 1000 fires a `SepsisRisk` alert and records
the timestamp. -/
theorem claim_C5_witness :
    hasSepsisAlert (engW.stepOutput uW) "P1" = true
    ∧ lastAlertOf (engW.stepEngine uW) "P1" = some 1000 := by
  have h := claim_C5.1 engW uW (fun hcon => absurd hcon (by decide))
  have hrhs : riskOf engW uW ≥ engW.config.sepsis_alert_threshold ∧ cooldownOk engW uW := by
    constructor
    · norm_num [riskOf, StreamingInference.calculate_risk, engW]
    · exact Or.inl rfl
  have hemit := h.1.mpr hrhs
  exact ⟨hemit, h.2 hemit⟩
